import Mathlib

/-!
Verification development for the vid-api-worker repository: a Cloudflare
Worker that proxies M3U8 playlists and media segments.  The definitions
below are shallow embeddings of the JavaScript source:

* `processPlaylistContent` embeds `processPlaylistContent` from
  `src/handlers/m3u8Handler.js`,
* `createProxyHeaders`, `fetchStatusCheck`, `errorStatusCode` and
  `createHttpErrorResponse` embed the functions of the same names in
  `src/utils/httpClient.js`,
* `validateQueryParams` / `createParamErrorResponse` embed
  `src/utils/urlUtils.js`,
* `workerRoute` embeds the dispatch of `src/index.js` together with the
  CORS middleware of `src/middleware/cors.js`,
* `determineContentType` embeds `src/handlers/segmentHandler.js`.

JavaScript strings are modelled as Lean `String`s (operating on their
character lists); `new URL(...)` is modelled by an executable WHATWG-style
parser/resolver for the special `http`/`https` schemes used by the
repository (components are kept verbatim; the model covers URLs whose
components need no additional percent-encoding, which is the case for
every URL the repository manipulates).  Fallible operations (`new URL`
throwing) return `Option`/`Except`.
-/

namespace VidProxy

/-! ## Character and string primitives (JS semantics) -/

/-- Whitespace stripped by JavaScript `String.prototype.trim`
(ASCII whitespace plus NBSP, BOM and the line/paragraph separators). -/
def jsWhitespace (c : Char) : Bool :=
  c = ' ' || c = '\t' || c = '\n' || c = '\r' || c = '\x0b' || c = '\x0c' ||
  c.toNat = 160 || c.toNat = 65279 || c.toNat = 8232 || c.toNat = 8233

/-- JavaScript `s.trim()`. -/
def jsTrim (s : String) : String :=
  String.mk (((s.toList.dropWhile jsWhitespace).reverse.dropWhile jsWhitespace).reverse)

/-- `listStartsWith s p` is true when the pattern `p` is an initial run of `s`. -/
def listStartsWith : List Char → List Char → Bool
  | _, [] => true
  | [], _ :: _ => false
  | a :: as, b :: bs => a == b && listStartsWith as bs

/-- JavaScript `s.startsWith(p)`. -/
def jsStartsWith (s p : String) : Bool :=
  listStartsWith s.toList p.toList

/-- JavaScript `s.endsWith(p)`. -/
def jsEndsWith (s p : String) : Bool :=
  listStartsWith s.toList.reverse p.toList.reverse

/-- `listContainsSub pat s` : does `pat` occur contiguously inside `s`?
This is JavaScript `s.includes(pat)`. -/
def listContainsSub (pat : List Char) : List Char → Bool
  | [] => pat.isEmpty
  | c :: rest => listStartsWith (c :: rest) pat || listContainsSub pat rest

/-- JavaScript `s.includes(pat)`. -/
def strContains (s pat : String) : Bool :=
  listContainsSub pat.toList s.toList

/-- Splitting on the regular expression `/\r?\n/`, as in
`playlistText.split(/\r?\n/)`: the delimiters are `\r\n` and `\n`;
a lone `\r` stays inside its line. -/
def splitLinesAux : List Char → List Char → List (List Char)
  | [], acc => [acc.reverse]
  | '\r' :: '\n' :: rest, acc => acc.reverse :: splitLinesAux rest []
  | '\n' :: rest, acc => acc.reverse :: splitLinesAux rest []
  | c :: rest, acc => splitLinesAux rest (c :: acc)

/-- JavaScript `s.split(/\r?\n/)`. -/
def splitLines (s : String) : List String :=
  (splitLinesAux s.toList []).map String.mk

/-! ## Decimal rendering of numbers (JS number-to-string for naturals) -/

/-- The decimal digit character of `n % 10`. -/
def digitChar (n : Nat) : Char := Char.ofNat (48 + n % 10)

/-- Fuel-driven base-10 rendering; `fuel` bounds the recursion depth so the
definition is structural (and hence kernel-computable). -/
def decReprAux : Nat → Nat → List Char
  | 0, _ => []
  | fuel + 1, n => if n < 10 then [digitChar n] else decReprAux fuel (n / 10) ++ [digitChar n]

/-- Decimal digit list of a natural number, most significant first. -/
def decRepr (n : Nat) : List Char := decReprAux (n + 1) n

/-- Decimal string of a natural number (JS `${n}` for integral `n ≥ 0`). -/
def natToString (n : Nat) : String := String.mk (decRepr n)

/-! ## `encodeURIComponent` -/

/-- Characters left unescaped by `encodeURIComponent`:
`A–Z a–z 0–9 - _ . ! ~ * ( )` and the apostrophe (code point 39). -/
def isURIComponentSafe (c : Char) : Bool :=
  ('A' ≤ c && c ≤ 'Z') || ('a' ≤ c && c ≤ 'z') || ('0' ≤ c && c ≤ '9') ||
  c = '-' || c = '_' || c = '.' || c = '!' || c = '~' || c = '*' ||
  c = '(' || c = ')' || c.toNat = 39

/-- UTF-8 bytes of a character. -/
def utf8Bytes (c : Char) : List Nat :=
  let n := c.toNat
  if n < 128 then [n]
  else if n < 2048 then [192 + n / 64, 128 + n % 64]
  else if n < 65536 then [224 + n / 4096, 128 + (n / 64) % 64, 128 + n % 64]
  else [240 + n / 262144, 128 + (n / 4096) % 64, 128 + (n / 64) % 64, 128 + n % 64]

/-- Uppercase hexadecimal digit for `n < 16`. -/
def hexDigitChar (n : Nat) : Char :=
  if n < 10 then Char.ofNat (48 + n) else Char.ofNat (55 + n % 16)

/-- `%HH` escape sequence of one byte. -/
def percentEncodeByte (b : Nat) : List Char :=
  ['%', hexDigitChar (b / 16), hexDigitChar (b % 16)]

/-- JavaScript `encodeURIComponent(s)`. -/
def encodeURIComponent (s : String) : String :=
  String.mk (s.toList.foldr
    (fun c acc =>
      if isURIComponentSafe c then c :: acc
      else ((utf8Bytes c).map percentEncodeByte).flatten ++ acc) [])

/-! ## URL model (`new URL(...)` for the http/https scheme family) -/

/-- A parsed absolute `http`/`https` URL, mirroring the components of the
WHATWG `URL` object that the repository reads (`href`, `origin`,
`hostname`).  `pathSegs` lists the `/`-separated path components after the
leading slash; the root path is `[""]`. -/
structure URLRec where
  scheme : String
  hostname : String
  port : Option Nat
  pathSegs : List String
  query : Option String
  fragment : Option String
deriving DecidableEq, Repr

def isAsciiAlpha (c : Char) : Bool :=
  ('A' ≤ c && c ≤ 'Z') || ('a' ≤ c && c ≤ 'z')

def isDigitChar (c : Char) : Bool := '0' ≤ c && c ≤ '9'

def isSchemeChar (c : Char) : Bool :=
  isAsciiAlpha c || isDigitChar c || c = '+' || c = '-' || c = '.'

/-- ASCII lower-casing, as applied by the URL parser to scheme and host. -/
def asciiLower (c : Char) : Char :=
  if 'A' ≤ c && c ≤ 'Z' then Char.ofNat (c.toNat + 32) else c

/-- Split a character list at the first occurrence of `sep`; the second
component is `none` when `sep` does not occur. -/
def splitAtFirst (sep : Char) : List Char → List Char × Option (List Char)
  | [] => ([], none)
  | c :: rest =>
    if c = sep then ([], some rest)
    else
      let r := splitAtFirst sep rest
      (c :: r.1, r.2)

/-- Split a character list on every occurrence of `sep`. -/
def splitOnChar (sep : Char) : List Char → List (List Char)
  | [] => [[]]
  | c :: rest =>
    let r := splitOnChar sep rest
    if c = sep then [] :: r
    else
      match r with
      | s :: tl => (c :: s) :: tl
      | [] => [[c]]

/-- Drop a `userinfo@` part from an authority (keep everything after the
last `@`; the identity when no `@` occurs). -/
def afterLastAt (l : List Char) : List Char :=
  (l.reverse.takeWhile (fun c => c ≠ '@')).reverse

def digitsToNat (l : List Char) : Nat :=
  l.foldl (fun n c => n * 10 + (c.toNat - 48)) 0

/-- Code points the WHATWG parser forbids inside a host (restricted to the
ones that can still occur after authority delimiting). -/
def forbiddenHostChar (c : Char) : Bool :=
  c = ' ' || c = '%' || c = '<' || c = '>' || c = '[' || c = ']' ||
  c = '^' || c = '|' || c = '\\' || c = '\t' || c = '\n' || c = '\r' ||
  c.toNat = 0

/-- Default port of a special scheme (elided from parsed URLs). -/
def portDefault (scheme : String) : Option Nat :=
  if scheme = "http" then some 80 else if scheme = "https" then some 443 else none

/-- Split `scheme:` off the front of a URL string, when present. -/
def splitScheme (cs : List Char) : Option (List Char × List Char) :=
  match cs with
  | [] => none
  | c :: _ =>
    if isAsciiAlpha c then
      let s := cs.takeWhile isSchemeChar
      match cs.drop s.length with
      | ':' :: r => some (s.map asciiLower, r)
      | _ => none
    else none

/-- Parse `host[:port]` (after userinfo removal), validating the host and
port and eliding the scheme's default port. -/
def parseHostPort (scheme : String) (auth : List Char) : Option (String × Option Nat) :=
  let hp := afterLastAt auth
  let hostCs := hp.takeWhile (fun c => c ≠ ':')
  if hostCs.isEmpty then none
  else if hostCs.any forbiddenHostChar then none
  else
    match hp.drop hostCs.length with
    | [] => some (String.mk (hostCs.map asciiLower), none)
    | _ :: portCs =>
      if portCs.isEmpty then some (String.mk (hostCs.map asciiLower), none)
      else if portCs.all isDigitChar && digitsToNat portCs < 65536 then
        some (String.mk (hostCs.map asciiLower),
          if portDefault scheme = some (digitsToNat portCs) then none
          else some (digitsToNat portCs))
      else none

/-- RFC 3986 `remove_dot_segments`, on slash-separated path components.
`acc` holds the already-emitted components in reverse. -/
def removeDotSegs (acc : List (List Char)) : List (List Char) → List (List Char)
  | [] => acc.reverse
  | [s] =>
    if s = ['.'] then acc.reverse ++ [[]]
    else if s = ['.', '.'] then (acc.drop 1).reverse ++ [[]]
    else (s :: acc).reverse
  | s :: rest =>
    if s = ['.'] then removeDotSegs acc rest
    else if s = ['.', '.'] then removeDotSegs (acc.drop 1) rest
    else removeDotSegs (s :: acc) rest

/-- Parse the `path [?query] [#fragment]` part following the authority.
The path is either empty or starts with `/`. -/
def parsePathQueryFrag (tail : List Char) : List String × Option String × Option String :=
  let bh := splitAtFirst '#' tail
  let pq := splitAtFirst '?' bh.1
  let segs :=
    match pq.1 with
    | [] => [[]]
    | _ :: pc => removeDotSegs [] (splitOnChar '/' pc)
  (segs.map String.mk, pq.2.map String.mk, bh.2.map String.mk)

/-- `new URL(s)` for the `http`/`https` schemes: parse an absolute URL,
returning `none` where the JS constructor throws. -/
def parseAbsoluteURL (s : String) : Option URLRec :=
  match splitScheme s.toList with
  | none => none
  | some (sch, rest) =>
    let scheme := String.mk sch
    if scheme = "http" ∨ scheme = "https" then
      match rest with
      | '/' :: '/' :: r =>
        let auth := r.takeWhile (fun c => c ≠ '/' && c ≠ '?' && c ≠ '#')
        let tail := r.drop auth.length
        match parseHostPort scheme auth with
        | none => none
        | some hp =>
          let pqf := parsePathQueryFrag tail
          some ⟨scheme, hp.1, hp.2, pqf.1, pqf.2.1, pqf.2.2⟩
      | _ => none
    else none

/-- `host[:port]` as rendered in `href`/`origin`. -/
def hostPortStr (u : URLRec) : String :=
  u.hostname ++ (match u.port with | none => "" | some p => ":" ++ natToString p)

/-- The `origin` property of a parsed URL: `scheme://host[:port]`. -/
def urlOrigin (u : URLRec) : String := u.scheme ++ "://" ++ hostPortStr u

/-- The `href` serialization of a parsed URL. -/
def urlHref (u : URLRec) : String :=
  urlOrigin u ++ "/" ++ String.intercalate "/" u.pathSegs ++
  (match u.query with | none => "" | some q => "?" ++ q) ++
  (match u.fragment with | none => "" | some f => "#" ++ f)

/-- Resolve a (possibly relative) reference `r` against a parsed base,
following the standard resolution rules (RFC 3986 §5.2, which the WHATWG
parser matches on the http(s) URLs the repository handles). -/
def resolveRef (base : URLRec) (r : String) : Option URLRec :=
  match parseAbsoluteURL r with
  | some u => some u
  | none =>
    match r.toList with
    | [] => some { base with fragment := none }
    | '#' :: f => some { base with fragment := some (String.mk f) }
    | '?' :: rest =>
      let qf := splitAtFirst '#' rest
      some { base with query := some (String.mk qf.1), fragment := qf.2.map String.mk }
    | '/' :: '/' :: _ => parseAbsoluteURL (base.scheme ++ ":" ++ r)
    | '/' :: _ =>
      let pqf := parsePathQueryFrag r.toList
      some { base with pathSegs := pqf.1, query := pqf.2.1, fragment := pqf.2.2 }
    | cs =>
      let firstSeg := cs.takeWhile (fun c => c ≠ '/' && c ≠ '?' && c ≠ '#')
      if firstSeg.any (fun c => c = ':') then none
      else
        let bh := splitAtFirst '#' cs
        let pq := splitAtFirst '?' bh.1
        let baseDir := (base.pathSegs.map String.toList).dropLast
        let segs := (removeDotSegs [] (baseDir ++ splitOnChar '/' pq.1)).map String.mk
        some { base with pathSegs := segs, query := pq.2.map String.mk, fragment := bh.2.map String.mk }

/-- `new URL(ref, base).href`: the base string is parsed first (the JS
constructor throws on an invalid base), then the reference is resolved
against it and serialized. -/
def jsNewURL (ref base : String) : Option String :=
  match parseAbsoluteURL base with
  | none => none
  | some b => (resolveRef b ref).map urlHref

/-! ## Playlist rewriter (`processPlaylistContent`, src/handlers/m3u8Handler.js)

The JS loop walks the line array with an index `i`; a `#EXT-X-STREAM-INF`
line additionally consumes the following line (`lines[++i]`) as its URI.
The recursion below mirrors that cursor exactly: the stream-inf case
recurses on the list after the consumed line.  A `new URL(...)` call that
throws makes the whole rewrite throw, modelled by `none`. -/

def processLines (base ref : String) : List String → Option (List String)
  | [] => some []
  | l :: rest =>
    let line := jsTrim l
    if jsStartsWith line "#EXT-X-STREAM-INF" then
      match rest with
      | [] => some [line]
      | nxt :: rest2 =>
        let next := jsTrim nxt
        if next = "" then
          Option.map (fun out => line :: out) (processLines base ref rest2)
        else
          match jsNewURL next base with
          | none => none
          | some abs =>
            Option.map
              (fun out =>
                line ::
                ("/player/stream?url=" ++ encodeURIComponent abs ++ "&ref=" ++ encodeURIComponent ref)
                :: out)
              (processLines base ref rest2)
    else if line ≠ "" ∧ jsStartsWith line "#" = false then
      match jsNewURL line base with
      | none => none
      | some abs =>
        Option.map
          (fun out =>
            ("/segment?url=" ++ encodeURIComponent abs ++ "&ref=" ++ encodeURIComponent ref) :: out)
          (processLines base ref rest)
    else
      Option.map (fun out => line :: out) (processLines base ref rest)

/-- `processPlaylistContent(playlistText, m3u8Url, refUrl)`: compute the
directory base `new URL('.', m3u8Url).href`, split the text on `/\r?\n/`,
rewrite every line, and join with `\n`. -/
def processPlaylistContent (playlistText m3u8Url refUrl : String) : Option String :=
  match jsNewURL "." m3u8Url with
  | none => none
  | some baseForRelative =>
    Option.map (String.intercalate "\n")
      (processLines baseForRelative refUrl (splitLines playlistText))

/-! ## HTTP client (src/utils/httpClient.js) -/

/-- A JavaScript `Error` value as inspected by the error mapper:
its `name` and `message`. -/
structure JsError where
  name : String
  message : String
deriving DecidableEq, Repr

/-- The upstream response data inspected by `fetchWithConfig`. -/
structure UpstreamResponse where
  status : Nat
  statusText : String
deriving DecidableEq, Repr

/-- The message of the error thrown by `fetchWithConfig` on a rejected
status: `` `HTTP ${response.status}: ${response.statusText}` ``. -/
def upstreamErrorMessage (status : Nat) (statusText : String) : String :=
  "HTTP " ++ natToString status ++ ": " ++ statusText

/-- The `Error` thrown by `fetchWithConfig` on a rejected status
(a plain `new Error(...)`, whose `name` is `"Error"`). -/
def upstreamError (status : Nat) (statusText : String) : JsError :=
  ⟨"Error", upstreamErrorMessage status statusText⟩

/-- The status validation of `fetchWithConfig`: a completed response is
returned exactly when `!(status < 200 || status >= 400)`; otherwise the
upstream error is thrown. -/
def fetchStatusCheck (resp : UpstreamResponse) : Except JsError UpstreamResponse :=
  if resp.status < 200 ∨ 400 ≤ resp.status then
    Except.error (upstreamError resp.status resp.statusText)
  else Except.ok resp

/-- `createProxyHeaders(refUrl, targetUrl)`: parses both URLs (the JS
constructor throws on an invalid one, modelled by `none`) and builds the
outbound header map. -/
def createProxyHeaders (refUrl targetUrl : String) : Option (List (String × String)) :=
  match parseAbsoluteURL refUrl, parseAbsoluteURL targetUrl with
  | some refU, some tgtU =>
    some [("Referer", refUrl), ("Origin", urlOrigin refU), ("Host", tgtU.hostname),
          ("Sec-Fetch-Dest", "empty"), ("Sec-Fetch-Mode", "cors"),
          ("Sec-Fetch-Site", "cross-site")]
  | _, _ => none

/-- The status-code selection of `createHttpErrorResponse`: abort errors
map to 408, then the error message is substring-matched against
`HTTP 403` / `404` / `429` / `502` / `503`, with 500 as the fallback. -/
def errorStatusCode (e : JsError) : Nat :=
  if e.name = "AbortError" then 408
  else if strContains e.message "HTTP 403" then 403
  else if strContains e.message "HTTP 404" then 404
  else if strContains e.message "HTTP 429" then 429
  else if strContains e.message "HTTP 502" ∨ strContains e.message "HTTP 503" then 502
  else 500

/-- The JSON body of `createHttpErrorResponse` (the `timestamp` field,
`new Date().toISOString()`, is wall-clock dependent and not modelled). -/
structure HttpErrorBody where
  error : String
  message : String
  status : Nat
deriving DecidableEq, Repr

/-- `createHttpErrorResponse(error, operation)`: the response status
together with its structured JSON body. -/
def createHttpErrorResponse (e : JsError) (operation : String) : Nat × HttpErrorBody :=
  (errorStatusCode e,
   ⟨"Failed to " ++ operation, e.message, errorStatusCode e⟩)

/-! ## Query-parameter validation (src/utils/urlUtils.js) -/

/-- Result record of `validateQueryParams`. -/
structure ValidationResult where
  isValid : Bool
  params : List (String × String)
  missing : List String
deriving DecidableEq, Repr

/-- `searchParams.get(name)`: first value bound to `name`, or null. -/
def spGet (sp : List (String × String)) (name : String) : Option String :=
  List.lookup name sp

/-- The JS falsiness test `!value` on `searchParams.get(name)`:
true when the parameter is absent or its value is the empty string. -/
def isMissingParam (sp : List (String × String)) (name : String) : Bool :=
  match spGet sp name with
  | none => true
  | some v => v = ""

/-- `validateQueryParams(searchParams, requiredParams)`: walk the required
names in order, collecting present parameters and missing names. -/
def validateQueryParams (sp : List (String × String)) (required : List String) :
    ValidationResult :=
  let r := required.foldl
    (fun (acc : List (String × String) × List String) p =>
      match spGet sp p with
      | none => (acc.1, acc.2 ++ [p])
      | some v => if v = "" then (acc.1, acc.2 ++ [p]) else (acc.1 ++ [(p, v)], acc.2))
    ([], [])
  ⟨r.2.isEmpty, r.1, r.2⟩

/-- The JSON body of `createParamErrorResponse`. -/
structure ParamErrorBody where
  error : String
  required : List String
deriving DecidableEq, Repr

/-- `createParamErrorResponse(missingParams)`: a 400 response whose body
names the missing parameters. -/
def createParamErrorResponse (missingParams : List String) : Nat × ParamErrorBody :=
  (400, ⟨"Missing required query parameters: " ++ String.intercalate ", " missingParams,
         missingParams⟩)

/-- The first step shared by `proxyM3U8` and `proxySegment`: validate the
`url`/`ref` query parameters and either return the 400 parameter error
before any network I/O, or proceed to URL parsing and the fetch with the
extracted parameter values. -/
inductive HandlerStart where
  | earlyError (status : Nat) (body : ParamErrorBody)
  | proceed (urlParam refParam : String)
deriving DecidableEq, Repr

/-- The parameter-validation prefix of both proxy handlers
(`validateQueryParams(url.searchParams, ['url', 'ref'])` followed by the
early `createParamErrorResponse` return). -/
def handlerValidateStep (sp : List (String × String)) : HandlerStart :=
  let validation := validateQueryParams sp ["url", "ref"]
  if validation.isValid = false then
    let r := createParamErrorResponse validation.missing
    HandlerStart.earlyError r.1 r.2
  else
    HandlerStart.proceed ((spGet validation.params "url").getD "")
      ((spGet validation.params "ref").getD "")

/-! ## Router and CORS (src/index.js, src/middleware/cors.js) -/

/-- The fixed permissive CORS header set of `src/middleware/cors.js`. -/
def corsHeaders : List (String × String) :=
  [("Access-Control-Allow-Origin", "*"),
   ("Access-Control-Allow-Methods", "GET, OPTIONS"),
   ("Access-Control-Allow-Headers", "Content-Type"),
   ("Access-Control-Max-Age", "86400")]

/-- Outcome of the router in `src/index.js`: either an immediate response
(status, body, headers) or the dispatch into one of the two proxy
handlers. -/
inductive RouteOutcome where
  | response (status : Nat) (body : Option String) (headers : List (String × String))
  | callProxyM3U8
  | callProxySegment
deriving DecidableEq, Repr

/-- `handleOptions()`: the CORS preflight response, 204 with a null body. -/
def handleOptionsResponse : RouteOutcome :=
  RouteOutcome.response 204 none corsHeaders

/-- Body of the `/` and `/health` status payload. -/
def healthBody : String :=
  "\x7b\"status\":\"ok\",\"service\":\"Video Proxy Worker\",\"endpoints\":[\"/player/stream\",\"/segment\"]\x7d"

/-- Body of the unknown-path response. -/
def notFoundBody : String :=
  "\x7b\"error\":\"Not found\",\"available_endpoints\":[\"/player/stream\",\"/segment\"]\x7d"

/-- The `fetch` dispatch of `src/index.js`: OPTIONS preflight first, then
the GET-only gate, then the path switch. -/
def workerRoute (method path : String) : RouteOutcome :=
  if method = "OPTIONS" then handleOptionsResponse
  else if method ≠ "GET" then
    RouteOutcome.response 405 (some "Method not allowed")
      [("Content-Type", "application/json")]
  else if path = "/player/stream" then RouteOutcome.callProxyM3U8
  else if path = "/segment" then RouteOutcome.callProxySegment
  else if path = "/" ∨ path = "/health" then
    RouteOutcome.response 200 (some healthBody) [("Content-Type", "application/json")]
  else
    RouteOutcome.response 404 (some notFoundBody) [("Content-Type", "application/json")]

/-! ## Segment content type (src/handlers/segmentHandler.js) -/

/-- `determineContentType(response, segmentUrl)`: the upstream
`content-type` header wins when it is truthy (present and non-empty);
otherwise the type is inferred from the literal end of the full segment
URL string. -/
def determineContentType (respContentType : Option String) (segmentUrl : String) : String :=
  let fallback :=
    if jsEndsWith segmentUrl ".ts" then "video/MP2T"
    else if jsEndsWith segmentUrl ".m4s" then "video/mp4"
    else if jsEndsWith segmentUrl ".webm" then "video/webm"
    else "application/octet-stream"
  match respContentType with
  | none => fallback
  | some ct => if ct = "" then fallback else ct

/-! ## Helper lemmas -/

lemma listStartsWith_append_left (s p q : List Char)
    (h : listStartsWith s (p ++ q) = true) : listStartsWith s p = true := by
  induction p generalizing s with
  | nil => simp [listStartsWith]
  | cons b bs ih =>
    cases s with
    | nil => simp [listStartsWith] at h
    | cons a as =>
      simp only [List.cons_append, listStartsWith, Bool.and_eq_true] at h ⊢
      exact ⟨h.1, ih as h.2⟩

lemma jsStartsWith_tag_hash (s : String)
    (h : jsStartsWith s "#EXT-X-STREAM-INF" = true) : jsStartsWith s "#" = true := by
  have hsplit : ("#EXT-X-STREAM-INF").toList = ("#").toList ++ ("EXT-X-STREAM-INF").toList := by
    decide
  unfold jsStartsWith at h ⊢
  rw [hsplit] at h
  exact listStartsWith_append_left _ _ _ h

lemma not_tag_of_not_hash (s : String) (h : jsStartsWith s "#" = false) :
    jsStartsWith s "#EXT-X-STREAM-INF" = false := by
  cases htag : jsStartsWith s "#EXT-X-STREAM-INF"
  · rfl
  · exact absurd (jsStartsWith_tag_hash s htag) (by simp [h])

lemma jsStartsWith_tag_ne_empty (s : String)
    (h : jsStartsWith s "#EXT-X-STREAM-INF" = true) : s ≠ "" := by
  intro he
  subst he
  revert h
  decide

/-! ## Claims about the playlist rewriter -/

/-- C1: on the two-line playlist `#EXT-X-STREAM-INF:BANDWIDTH=100\nvariant.m3u8`
with playlist URL `https://cdn.example.com/live/index.m3u8` and referer
`https://site.example.com/`, the rewrite returns exactly the tag line
unchanged followed (joined by `\n`) by
`/player/stream?url=https%3A%2F%2Fcdn.example.com%2Flive%2Fvariant.m3u8&ref=https%3A%2F%2Fsite.example.com%2F`. -/
theorem c1_rewrite_master_example :
    processPlaylistContent "#EXT-X-STREAM-INF:BANDWIDTH=100\nvariant.m3u8"
      "https://cdn.example.com/live/index.m3u8" "https://site.example.com/" =
    some (String.intercalate "\n"
      ["#EXT-X-STREAM-INF:BANDWIDTH=100",
       "/player/stream?url=https%3A%2F%2Fcdn.example.com%2Flive%2Fvariant.m3u8&ref=https%3A%2F%2Fsite.example.com%2F"]) := by
  decide

/-- C2 counterexample: in the playlist
`#EXT-X-STREAM-INF:BANDWIDTH=100\nvariant.m3u8`, the line `variant.m3u8`
is non-empty after trimming and does not start with `#`, yet the rewrite
emits no `/segment?...` line at all for this playlist (the line is
consumed as the stream-inf URI and rewritten to `/player/stream?...`),
refuting the claim that every such line is replaced by a `/segment?...`
line. -/
theorem c2_counterexample :
    jsTrim "variant.m3u8" ≠ "" ∧
    jsStartsWith (jsTrim "variant.m3u8") "#" = false ∧
    processPlaylistContent "#EXT-X-STREAM-INF:BANDWIDTH=100\nvariant.m3u8"
      "https://cdn.example.com/live/index.m3u8" "https://site.example.com/" =
    some "#EXT-X-STREAM-INF:BANDWIDTH=100\n/player/stream?url=https%3A%2F%2Fcdn.example.com%2Flive%2Fvariant.m3u8&ref=https%3A%2F%2Fsite.example.com%2F" ∧
    strContains "#EXT-X-STREAM-INF:BANDWIDTH=100\n/player/stream?url=https%3A%2F%2Fcdn.example.com%2Flive%2Fvariant.m3u8&ref=https%3A%2F%2Fsite.example.com%2F"
      "/segment" = false := by
  refine ⟨by decide, by decide, by decide, by decide⟩

/-- C2 (amended): whenever the forward scan reaches, at the top of the
loop, a line that after trimming is non-empty and does not start with `#`
(so in particular the line is not consumed as the URI of a preceding
`#EXT-X-STREAM-INF` tag), and the line resolves against the directory
component `b` of the playlist URL to the absolute URL `abs`, the rewrite
emits in its place exactly the single line
`/segment?url=<enc abs>&ref=<enc ref>` and continues with the remaining
lines. -/
theorem c2_segment_line (playlistUrl refUrl l : String) (rest : List String) (b abs : String)
    (hb : jsNewURL "." playlistUrl = some b)
    (h1 : jsTrim l ≠ "")
    (h2 : jsStartsWith (jsTrim l) "#" = false)
    (hres : jsNewURL (jsTrim l) b = some abs) :
    processLines b refUrl (l :: rest) =
      Option.map
        (fun out =>
          ("/segment?url=" ++ encodeURIComponent abs ++ "&ref=" ++ encodeURIComponent refUrl) :: out)
        (processLines b refUrl rest) := by
  have htag : jsStartsWith (jsTrim l) "#EXT-X-STREAM-INF" = false := not_tag_of_not_hash _ h2
  rw [processLines.eq_def]
  simp [htag, h1, h2, hres]

/-- Witness for the amended C2 at a concrete input: `seg001.ts` under base
`https://cdn.example.com/live/` becomes the expected `/segment?...` line. -/
theorem c2_segment_line_witness :
    jsNewURL "." "https://cdn.example.com/live/index.m3u8" = some "https://cdn.example.com/live/" ∧
    jsTrim "seg001.ts" ≠ "" ∧
    jsStartsWith (jsTrim "seg001.ts") "#" = false ∧
    jsNewURL (jsTrim "seg001.ts") "https://cdn.example.com/live/" =
      some "https://cdn.example.com/live/seg001.ts" ∧
    processLines "https://cdn.example.com/live/" "https://site.example.com/" ["seg001.ts"] =
      Option.map
        (fun out =>
          ("/segment?url=" ++ encodeURIComponent "https://cdn.example.com/live/seg001.ts" ++
            "&ref=" ++ encodeURIComponent "https://site.example.com/") :: out)
        (processLines "https://cdn.example.com/live/" "https://site.example.com/" []) := by
  refine ⟨by decide, by decide, by decide, by decide, ?_⟩
  exact c2_segment_line "https://cdn.example.com/live/index.m3u8" "https://site.example.com/"
    "seg001.ts" [] "https://cdn.example.com/live/" "https://cdn.example.com/live/seg001.ts"
    (by decide) (by decide) (by decide) (by decide)

/-- C3: a `#EXT-X-STREAM-INF` tag line with no following URI — either as
the last line, or followed by a line that is empty after trimming — does
not throw: the trimmed tag line is still emitted, no rewritten reference
line is emitted for it, and the remaining lines are processed normally. -/
theorem c3_malformed_tag (b ref tagLine : String)
    (h : jsStartsWith (jsTrim tagLine) "#EXT-X-STREAM-INF" = true) :
    processLines b ref [tagLine] = some [jsTrim tagLine] ∧
    (∀ (emptyLine : String) (rest out : List String),
      jsTrim emptyLine = "" → processLines b ref rest = some out →
      processLines b ref (tagLine :: emptyLine :: rest) = some (jsTrim tagLine :: out)) := by
  constructor
  · rw [processLines.eq_def]
    simp [h]
  · intro e rest out he hrest
    rw [processLines.eq_def]
    simp [h, he, hrest]

/-- Witness for C3 at a concrete input: tag as last line, and tag followed
by a blank line with a segment line after it. -/
theorem c3_malformed_tag_witness :
    jsStartsWith (jsTrim "#EXT-X-STREAM-INF:BANDWIDTH=100") "#EXT-X-STREAM-INF" = true ∧
    processLines "https://cdn.example.com/live/" "https://site.example.com/"
      ["#EXT-X-STREAM-INF:BANDWIDTH=100"] = some ["#EXT-X-STREAM-INF:BANDWIDTH=100"] ∧
    processLines "https://cdn.example.com/live/" "https://site.example.com/"
      ["#EXT-X-STREAM-INF:BANDWIDTH=100", "  ", "seg1.ts"] =
      some ["#EXT-X-STREAM-INF:BANDWIDTH=100",
        "/segment?url=https%3A%2F%2Fcdn.example.com%2Flive%2Fseg1.ts&ref=https%3A%2F%2Fsite.example.com%2F"] := by
  refine ⟨by decide, ?_, ?_⟩
  · have h := (c3_malformed_tag "https://cdn.example.com/live/" "https://site.example.com/"
      "#EXT-X-STREAM-INF:BANDWIDTH=100" (by decide)).1
    simpa using h
  · have h := (c3_malformed_tag "https://cdn.example.com/live/" "https://site.example.com/"
      "#EXT-X-STREAM-INF:BANDWIDTH=100" (by decide)).2 "  " ["seg1.ts"]
      ["/segment?url=https%3A%2F%2Fcdn.example.com%2Flive%2Fseg1.ts&ref=https%3A%2F%2Fsite.example.com%2F"]
      (by decide) (by decide)
    simpa using h

/-- C4: two consecutive `#EXT-X-STREAM-INF` tag lines with no valid URI
between them — the first tag consumes the second line as its attempted
URI, the scan resumes at the line after it, never re-reading it, and the
remaining lines are processed exactly as the same suffix would be in
isolation. -/
theorem c4_consecutive_tags (b ref t1 t2 : String) (rest : List String) (abs : String)
    (h1 : jsStartsWith (jsTrim t1) "#EXT-X-STREAM-INF" = true)
    (h2 : jsStartsWith (jsTrim t2) "#EXT-X-STREAM-INF" = true)
    (habs : jsNewURL (jsTrim t2) b = some abs) :
    processLines b ref (t1 :: t2 :: rest) =
      Option.map
        (fun out => jsTrim t1 ::
          ("/player/stream?url=" ++ encodeURIComponent abs ++ "&ref=" ++ encodeURIComponent ref)
          :: out)
        (processLines b ref rest) := by
  have hne : jsTrim t2 ≠ "" := jsStartsWith_tag_ne_empty _ h2
  rw [processLines.eq_def]
  simp [h1, hne, habs]

/-- Witness for C4 at a concrete input: the second tag line is consumed as
a fragment-only URL reference, and the segment line after the pair is
rewritten exactly as in isolation. -/
theorem c4_consecutive_tags_witness :
    jsStartsWith (jsTrim "#EXT-X-STREAM-INF:BANDWIDTH=100") "#EXT-X-STREAM-INF" = true ∧
    jsStartsWith (jsTrim "#EXT-X-STREAM-INF:BANDWIDTH=200") "#EXT-X-STREAM-INF" = true ∧
    jsNewURL (jsTrim "#EXT-X-STREAM-INF:BANDWIDTH=200") "https://cdn.example.com/live/" =
      some "https://cdn.example.com/live/#EXT-X-STREAM-INF:BANDWIDTH=200" ∧
    processLines "https://cdn.example.com/live/" "https://site.example.com/"
      ["#EXT-X-STREAM-INF:BANDWIDTH=100", "#EXT-X-STREAM-INF:BANDWIDTH=200", "v.m3u8"] =
      Option.map
        (fun out => jsTrim "#EXT-X-STREAM-INF:BANDWIDTH=100" ::
          ("/player/stream?url=" ++
            encodeURIComponent "https://cdn.example.com/live/#EXT-X-STREAM-INF:BANDWIDTH=200" ++
            "&ref=" ++ encodeURIComponent "https://site.example.com/") :: out)
        (processLines "https://cdn.example.com/live/" "https://site.example.com/" ["v.m3u8"]) := by
  refine ⟨by decide, by decide, by decide, ?_⟩
  exact c4_consecutive_tags "https://cdn.example.com/live/" "https://site.example.com/"
    "#EXT-X-STREAM-INF:BANDWIDTH=100" "#EXT-X-STREAM-INF:BANDWIDTH=200" ["v.m3u8"]
    "https://cdn.example.com/live/#EXT-X-STREAM-INF:BANDWIDTH=200"
    (by decide) (by decide) (by decide)

/-! ## Claims about the HTTP client, handlers and router -/

/-- C5: for every pair of well-formed absolute URLs, the outbound header
builder `createProxyHeaders(refUrl, targetUrl)` used by the proxy flows
produces Referer = the full referer URL, Origin = the scheme+host origin
of the referer URL (not the full URL), Host = the hostname of the target
URL, plus the static fetch-metadata hints. -/
theorem c5_proxy_headers (refUrl targetUrl : String) (r t : URLRec)
    (hr : parseAbsoluteURL refUrl = some r) (ht : parseAbsoluteURL targetUrl = some t) :
    createProxyHeaders refUrl targetUrl =
      some [("Referer", refUrl), ("Origin", r.scheme ++ "://" ++ hostPortStr r),
            ("Host", t.hostname), ("Sec-Fetch-Dest", "empty"),
            ("Sec-Fetch-Mode", "cors"), ("Sec-Fetch-Site", "cross-site")] := by
  simp [createProxyHeaders, hr, ht, urlOrigin]

/-- Witness for C5 at a concrete pair of URLs. -/
theorem c5_proxy_headers_witness :
    parseAbsoluteURL "https://site.example.com/page" =
      some ⟨"https", "site.example.com", none, ["page"], none, none⟩ ∧
    parseAbsoluteURL "https://cdn.example.com/live/index.m3u8" =
      some ⟨"https", "cdn.example.com", none, ["live", "index.m3u8"], none, none⟩ ∧
    createProxyHeaders "https://site.example.com/page" "https://cdn.example.com/live/index.m3u8" =
      some [("Referer", "https://site.example.com/page"), ("Origin", "https://site.example.com"),
            ("Host", "cdn.example.com"), ("Sec-Fetch-Dest", "empty"),
            ("Sec-Fetch-Mode", "cors"), ("Sec-Fetch-Site", "cross-site")] := by
  refine ⟨by decide, by decide, ?_⟩
  have h := c5_proxy_headers "https://site.example.com/page"
    "https://cdn.example.com/live/index.m3u8"
    ⟨"https", "site.example.com", none, ["page"], none, none⟩
    ⟨"https", "cdn.example.com", none, ["live", "index.m3u8"], none, none⟩
    (by decide) (by decide)
  exact h.trans (by decide)

/-- C7: a completed fetch is returned exactly when its status lies in
[200, 400); any other status makes `fetchWithConfig` fail with the
upstream error carrying the status code and status text in its message. -/
theorem c7_status_band (resp : UpstreamResponse) :
    (200 ≤ resp.status ∧ resp.status < 400 → fetchStatusCheck resp = Except.ok resp) ∧
    (resp.status < 200 ∨ 400 ≤ resp.status →
      fetchStatusCheck resp = Except.error (upstreamError resp.status resp.statusText)) := by
  constructor
  · intro h
    rw [fetchStatusCheck, if_neg (by omega)]
  · intro h
    rw [fetchStatusCheck, if_pos h]

/-- Witness for C7: 200 is accepted, 404 is rejected with the
`HTTP 404: Not Found` error. -/
theorem c7_status_band_witness :
    fetchStatusCheck ⟨200, "OK"⟩ = Except.ok ⟨200, "OK"⟩ ∧
    fetchStatusCheck ⟨404, "Not Found"⟩ = Except.error ⟨"Error", "HTTP 404: Not Found"⟩ := by
  constructor
  · exact (c7_status_band ⟨200, "OK"⟩).1 (by exact ⟨by norm_num, by norm_num⟩)
  · exact (c7_status_band ⟨404, "Not Found"⟩).2 (Or.inr (by norm_num))

/-- The missing-parameter list the spec prescribes for the `url`/`ref`
validation: every absent-or-empty parameter, in the order checked
(`url` before `ref`). -/
def expectedMissing (sp : List (String × String)) : List String :=
  (if isMissingParam sp "url" then ["url"] else []) ++
  (if isMissingParam sp "ref" then ["ref"] else [])

/-- C8: when `url` and/or `ref` is absent or empty, the handler returns a
400 parameter-error response before any network I/O; its `required` array
lists every absent/empty parameter in the order checked (`url` before
`ref`), and its error string names them all. -/
theorem c8_missing_params (sp : List (String × String))
    (h : isMissingParam sp "url" = true ∨ isMissingParam sp "ref" = true) :
    (validateQueryParams sp ["url", "ref"]).isValid = false ∧
    (validateQueryParams sp ["url", "ref"]).missing = expectedMissing sp ∧
    handlerValidateStep sp =
      HandlerStart.earlyError 400
        ⟨"Missing required query parameters: " ++ String.intercalate ", " (expectedMissing sp),
         expectedMissing sp⟩ := by
  rcases hu : spGet sp "url" with _ | uv
  all_goals rcases hrf : spGet sp "ref" with _ | rv
  all_goals
    simp only [validateQueryParams, handlerValidateStep, createParamErrorResponse,
      expectedMissing, isMissingParam, List.foldl_cons, List.foldl_nil, hu, hrf] at h ⊢
  · simp
  · by_cases hrv : rv = "" <;> simp [hrv]
  · by_cases huv : uv = "" <;> simp [huv]
  · by_cases huv : uv = "" <;> by_cases hrv : rv = "" <;> simp [huv, hrv] at h ⊢

/-- Witness for C8: with both parameters absent, the 400 body lists both
`url` and `ref`, in that order. -/
theorem c8_missing_params_witness :
    handlerValidateStep [] =
      HandlerStart.earlyError 400
        ⟨"Missing required query parameters: url, ref", ["url", "ref"]⟩ := by
  have h := (c8_missing_params [] (Or.inl (by decide))).2.2
  exact h.trans (by decide)

/-- C9: the router accepts only GET for the content routes: OPTIONS gets
the 204 empty-body CORS preflight response, any method other than GET and
OPTIONS gets the 405 response, and the proxy handlers are only ever
reached with method GET. -/
theorem c9_method_routing (method path : String)
    (hm1 : method ≠ "GET") (hm2 : method ≠ "OPTIONS") :
    workerRoute "OPTIONS" path = RouteOutcome.response 204 none corsHeaders ∧
    workerRoute method path =
      RouteOutcome.response 405 (some "Method not allowed")
        [("Content-Type", "application/json")] ∧
    (∀ m p, (workerRoute m p = RouteOutcome.callProxyM3U8 ∨
             workerRoute m p = RouteOutcome.callProxySegment) → m = "GET") := by
  refine ⟨by simp [workerRoute, handleOptionsResponse], by simp [workerRoute, hm1, hm2], ?_⟩
  intro m p hcall
  by_cases hO : m = "OPTIONS"
  · rw [hO] at hcall
    simp [workerRoute, handleOptionsResponse] at hcall
  · by_cases hG : m = "GET"
    · exact hG
    · simp [workerRoute, hO, hG] at hcall

/-- Witness for C9: a POST to `/segment` is answered 405, OPTIONS is
answered with the preflight. -/
theorem c9_method_routing_witness :
    workerRoute "OPTIONS" "/segment" = RouteOutcome.response 204 none corsHeaders ∧
    workerRoute "POST" "/segment" =
      RouteOutcome.response 405 (some "Method not allowed")
        [("Content-Type", "application/json")] := by
  have h := c9_method_routing "POST" "/segment" (by decide) (by decide)
  exact ⟨h.1, h.2.1⟩

/-- A URL ending in `.m4s` does not end in `.ts`. -/
lemma ends_m4s_not_ts (url : String) (h : jsEndsWith url ".m4s" = true) :
    jsEndsWith url ".ts" = false := by
  unfold jsEndsWith at h ⊢
  rcases hr : url.toList.reverse with _ | ⟨a, _ | ⟨b, rest⟩⟩ <;>
    rw [hr] at h <;> revert h <;> simp [listStartsWith] <;> intro h1 h2 <;> simp [h2]

/-- A URL ending in `.webm` does not end in `.ts`. -/
lemma ends_webm_not_ts (url : String) (h : jsEndsWith url ".webm" = true) :
    jsEndsWith url ".ts" = false := by
  unfold jsEndsWith at h ⊢
  rcases hr : url.toList.reverse with _ | ⟨a, rest⟩ <;>
    rw [hr] at h <;> revert h <;> simp [listStartsWith] <;> intro h1 <;> simp [h1]

/-- A URL ending in `.webm` does not end in `.m4s`. -/
lemma ends_webm_not_m4s (url : String) (h : jsEndsWith url ".webm" = true) :
    jsEndsWith url ".m4s" = false := by
  unfold jsEndsWith at h ⊢
  rcases hr : url.toList.reverse with _ | ⟨a, rest⟩ <;>
    rw [hr] at h <;> revert h <;> simp [listStartsWith] <;> intro h1 <;> simp [h1]

/-- C10 counterexample: a present-but-empty upstream `content-type` header
is not used — the code falls back to the extension (JS truthiness), so the
content type is not the header value. -/
theorem c10_counterexample :
    determineContentType (some "") "https://cdn.example.com/seg001.ts" = "video/MP2T" ∧
    determineContentType (some "") "https://cdn.example.com/seg001.ts" ≠ "" := by
  exact ⟨by decide, by decide⟩

/-- C10 (amended): the content type is the upstream `content-type` header
whenever that header is present and non-empty; otherwise it is
`video/MP2T`, `video/mp4` or `video/webm` exactly when the full segment
URL string ends with the literal suffix `.ts`, `.m4s` or `.webm`
respectively, and `application/octet-stream` in all other cases. -/
theorem c10_content_type (respCT : Option String) (url : String) :
    (∀ ct, respCT = some ct → ct ≠ "" → determineContentType respCT url = ct) ∧
    (respCT = none ∨ respCT = some "" →
      ((determineContentType respCT url = "video/MP2T" ↔ jsEndsWith url ".ts" = true) ∧
       (determineContentType respCT url = "video/mp4" ↔ jsEndsWith url ".m4s" = true) ∧
       (determineContentType respCT url = "video/webm" ↔ jsEndsWith url ".webm" = true) ∧
       (determineContentType respCT url = "application/octet-stream" ↔
         (jsEndsWith url ".ts" = false ∧ jsEndsWith url ".m4s" = false ∧
          jsEndsWith url ".webm" = false)))) := by
  constructor
  · intro ct hct hne
    subst hct
    simp [determineContentType, hne]
  · intro hempty
    have hfall : determineContentType respCT url =
        (if jsEndsWith url ".ts" then "video/MP2T"
         else if jsEndsWith url ".m4s" then "video/mp4"
         else if jsEndsWith url ".webm" then "video/webm"
         else "application/octet-stream") := by
      rcases hempty with hnone | hsome
      · subst hnone; rfl
      · subst hsome; rfl
    rw [hfall]
    by_cases hts : jsEndsWith url ".ts" = true
    · have hm4s := ends_m4s_not_ts url
      have hwebm := ends_webm_not_ts url
      constructor
      · simp [hts]
      constructor
      · simp only [hts, if_true]
        constructor
        · intro hx; exact absurd hx (by decide)
        · intro hx; exact absurd hts (by simp [hm4s hx])
      constructor
      · simp only [hts, if_true]
        constructor
        · intro hx; exact absurd hx (by decide)
        · intro hx; exact absurd hts (by simp [hwebm hx])
      · simp [hts]
    · replace hts : jsEndsWith url ".ts" = false := by
        cases h : jsEndsWith url ".ts"
        · rfl
        · exact absurd h hts
      by_cases hm4s : jsEndsWith url ".m4s" = true
      · have hwebm := ends_webm_not_m4s url
        refine ⟨by simp [hts, hm4s], by simp [hts, hm4s], ?_, by simp [hts, hm4s]⟩
        simp only [hts, Bool.false_eq_true, if_false, hm4s, if_true]
        constructor
        · intro hx; exact absurd hx (by decide)
        · intro hx; exact absurd hm4s (by simp [hwebm hx])
      · replace hm4s : jsEndsWith url ".m4s" = false := by
          cases h : jsEndsWith url ".m4s"
          · rfl
          · exact absurd h hm4s
        cases hwebm : jsEndsWith url ".webm" <;>
          simp [hts, hm4s, hwebm]

/-- Witness for C10: a non-empty upstream header wins; with no header, a
`.ts` URL followed by a query string is served as
`application/octet-stream`, not `video/MP2T`. -/
theorem c10_content_type_witness :
    determineContentType (some "video/mp2t") "https://cdn.example.com/seg001.ts?token=x" =
      "video/mp2t" ∧
    determineContentType none "https://cdn.example.com/seg001.ts?token=x" =
      "application/octet-stream" := by
  constructor
  · exact (c10_content_type (some "video/mp2t") "https://cdn.example.com/seg001.ts?token=x").1
      "video/mp2t" rfl (by decide)
  · exact ((c10_content_type none "https://cdn.example.com/seg001.ts?token=x").2
      (Or.inl rfl)).2.2.2.mpr ⟨by decide, by decide, by decide⟩

/-! ## C6: the error-to-status mapping

`createHttpErrorResponse` decides the status by substring-matching the
error message.  The lemmas below characterize when an upstream error
message `HTTP <status>: <statusText>` contains a pattern `HTTP <code>`:
provided the status text itself contains no occurrence of `HTTP`, the only
possible match is at the head of the message, so containment holds exactly
when the upstream status equals the code. -/

lemma decReprAux_irrel (n : Nat) : ∀ f g, n < f → n < g → decReprAux f n = decReprAux g n := by
  induction n using Nat.strong_induction_on with
  | _ n ih =>
    intro f g hf hg
    obtain ⟨f', rfl⟩ : ∃ x, f = x + 1 := ⟨f - 1, by omega⟩
    obtain ⟨g', rfl⟩ : ∃ x, g = x + 1 := ⟨g - 1, by omega⟩
    simp only [decReprAux]
    by_cases h10 : n < 10
    · simp [h10]
    · have hlt : n / 10 < n := Nat.div_lt_self (by omega) (by omega)
      simp only [h10, if_false]
      rw [ih (n / 10) hlt f' g' (by omega) (by omega)]

lemma decReprAux_of_lt (f n : Nat) (h : n < f) :
    decReprAux f n =
      if n < 10 then [digitChar n] else decReprAux (n / 10 + 1) (n / 10) ++ [digitChar n] := by
  obtain ⟨g, rfl⟩ : ∃ x, f = x + 1 := ⟨f - 1, by omega⟩
  conv_lhs => simp only [decReprAux]
  by_cases h10 : n < 10
  · simp [h10]
  · rw [if_neg h10, if_neg h10]
    have hlt : n / 10 < n := Nat.div_lt_self (by omega) (by omega)
    rw [decReprAux_irrel (n / 10) g (n / 10 + 1) (by omega) (by omega)]

lemma decRepr_step (n : Nat) :
    decRepr n = if n < 10 then [digitChar n] else decRepr (n / 10) ++ [digitChar n] := by
  unfold decRepr
  exact decReprAux_of_lt (n + 1) n (by omega)

lemma digitChar_ne_H (n : Nat) : digitChar n ≠ 'H' := by
  unfold digitChar
  have h : n % 10 < 10 := Nat.mod_lt _ (by omega)
  revert h
  generalize n % 10 = k
  revert k
  decide

lemma decRepr_chars (n : Nat) : ∀ c ∈ decRepr n, c ≠ 'H' := by
  induction n using Nat.strong_induction_on with
  | _ n ih =>
    intro c hc
    rw [decRepr_step] at hc
    by_cases h10 : n < 10
    · rw [if_pos h10] at hc
      simp at hc
      subst hc
      exact digitChar_ne_H n
    · rw [if_neg h10, List.mem_append] at hc
      rcases hc with hc | hc
      · exact ih (n / 10) (Nat.div_lt_self (by omega) (by omega)) c hc
      · simp at hc
        subst hc
        exact digitChar_ne_H n

lemma decRepr_three (n : Nat) (h1 : 100 ≤ n) (h2 : n ≤ 999) :
    decRepr n = [digitChar (n / 100), digitChar (n / 10), digitChar n] := by
  rw [decRepr_step, if_neg (by omega)]
  rw [decRepr_step, if_neg (by omega)]
  rw [decRepr_step, if_pos (by omega)]
  have hdd : n / 10 / 10 = n / 100 := by omega
  rw [hdd]
  simp

lemma digitChar_mod10 (m : Nat) : digitChar (m % 10) = digitChar m := by
  unfold digitChar
  congr 1
  omega

lemma digitChar_beq : ∀ a, a < 10 → ∀ b, b < 10 →
    ((digitChar a == digitChar b) = decide (a = b)) := by decide

lemma listContainsSub_skip (h : Char) (p mid t : List Char)
    (hmid : ∀ c ∈ mid, c ≠ h) :
    listContainsSub (h :: p) (mid ++ t) = listContainsSub (h :: p) t := by
  induction mid with
  | nil => rfl
  | cons c cs ih =>
    have hc : c ≠ h := hmid c (by simp)
    have hfalse : listStartsWith (c :: (cs ++ t)) (h :: p) = false := by
      simp only [listStartsWith, Bool.and_eq_false_iff]
      left
      simp [hc]
    calc listContainsSub (h :: p) ((c :: cs) ++ t)
        = (listStartsWith (c :: (cs ++ t)) (h :: p) || listContainsSub (h :: p) (cs ++ t)) := rfl
      _ = listContainsSub (h :: p) (cs ++ t) := by rw [hfalse]; simp
      _ = listContainsSub (h :: p) t := ih (fun c2 hc2 => hmid c2 (by simp [hc2]))

lemma listContainsSub_mono (p q s : List Char)
    (h : listContainsSub (p ++ q) s = true) : listContainsSub p s = true := by
  induction s with
  | nil =>
    cases p with
    | nil => rfl
    | cons a as => simp [listContainsSub] at h
  | cons c cs ih =>
    simp only [listContainsSub, Bool.or_eq_true] at h ⊢
    rcases h with h | h
    · exact Or.inl (listStartsWith_append_left _ _ _ h)
    · exact Or.inr (ih h)

lemma contains_http_code (n a b c : Nat) (t : List Char)
    (hn1 : 100 ≤ n) (hn2 : n ≤ 999) (ha : a < 10) (hb : b < 10) (hc : c < 10)
    (ht : listContainsSub ('H' :: 'T' :: 'T' :: 'P' :: []) t = false) :
    listContainsSub
      ('H' :: 'T' :: 'T' :: 'P' :: ' ' :: digitChar a :: digitChar b :: digitChar c :: [])
      ('H' :: 'T' :: 'T' :: 'P' :: ' ' :: (decRepr n ++ ':' :: ' ' :: t)) =
    decide (n = 100 * a + 10 * b + c) := by
  have hassoc :
      ('T' :: 'T' :: 'P' :: ' ' :: (decRepr n ++ ':' :: ' ' :: t)) =
      ('T' :: 'T' :: 'P' :: ' ' :: (decRepr n ++ [':', ' '])) ++ t := by
    simp
  have hmid : ∀ ch ∈ ('T' :: 'T' :: 'P' :: ' ' :: (decRepr n ++ [':', ' '])), ch ≠ 'H' := by
    intro ch hch heq
    subst heq
    simp only [List.mem_cons] at hch
    rcases hch with h1 | h1 | h1 | h1 | h1
    · exact absurd h1 (by decide)
    · exact absurd h1 (by decide)
    · exact absurd h1 (by decide)
    · exact absurd h1 (by decide)
    · rcases List.mem_append.mp h1 with h2 | h2
      · exact decRepr_chars n 'H' h2 rfl
      · exact absurd h2 (by decide)
  have hskip :
      listContainsSub
        ('H' :: 'T' :: 'T' :: 'P' :: ' ' :: digitChar a :: digitChar b :: digitChar c :: [])
        ('T' :: 'T' :: 'P' :: ' ' :: (decRepr n ++ ':' :: ' ' :: t)) = false := by
    rw [hassoc, listContainsSub_skip 'H' _ _ _ hmid]
    cases hx : listContainsSub
        ('H' :: 'T' :: 'T' :: 'P' :: ' ' :: digitChar a :: digitChar b :: digitChar c :: []) t
    · rfl
    · have hmono := listContainsSub_mono ['H', 'T', 'T', 'P']
        (' ' :: digitChar a :: digitChar b :: digitChar c :: []) t hx
      rw [ht] at hmono
      exact absurd hmono (by simp)
  have hstep :
      listContainsSub
        ('H' :: 'T' :: 'T' :: 'P' :: ' ' :: digitChar a :: digitChar b :: digitChar c :: [])
        ('H' :: 'T' :: 'T' :: 'P' :: ' ' :: (decRepr n ++ ':' :: ' ' :: t)) =
      (listStartsWith ('H' :: 'T' :: 'T' :: 'P' :: ' ' :: (decRepr n ++ ':' :: ' ' :: t))
        ('H' :: 'T' :: 'T' :: 'P' :: ' ' :: digitChar a :: digitChar b :: digitChar c :: []) ||
       listContainsSub
        ('H' :: 'T' :: 'T' :: 'P' :: ' ' :: digitChar a :: digitChar b :: digitChar c :: [])
        ('T' :: 'T' :: 'P' :: ' ' :: (decRepr n ++ ':' :: ' ' :: t))) := rfl
  rw [hstep, hskip, Bool.or_false]
  rw [decRepr_three n hn1 hn2]
  have e1 : (digitChar (n / 100) == digitChar a) = decide (n / 100 = a) := by
    rw [digitChar_beq (n / 100) (by omega) a ha]
  have e2 : (digitChar (n / 10) == digitChar b) = decide (n / 10 % 10 = b) := by
    rw [← digitChar_mod10 (n / 10), digitChar_beq (n / 10 % 10) (by omega) b hb]
  have e3 : (digitChar n == digitChar c) = decide (n % 10 = c) := by
    rw [← digitChar_mod10 n, digitChar_beq (n % 10) (by omega) c hc]
  simp only [listStartsWith, List.cons_append, e1, e2, e3]
  simp only [beq_self_eq_true, Bool.true_and, Bool.and_true]
  have hand : (decide (n / 100 = a) && (decide (n / 10 % 10 = b) && decide (n % 10 = c))) =
      decide ((n / 100 = a) ∧ (n / 10 % 10 = b) ∧ (n % 10 = c)) := by
    by_cases h1 : n / 100 = a <;> by_cases h2 : n / 10 % 10 = b <;>
      by_cases h3 : n % 10 = c <;> simp [h1, h2, h3]
  have hiff : ((n / 100 = a) ∧ (n / 10 % 10 = b) ∧ (n % 10 = c)) ↔
      (n = 100 * a + 10 * b + c) := by omega
  rw [hand]
  simp only [hiff]

/-- Containment of `HTTP <code>` in an upstream error message, at the
level of the embedded strings. -/
lemma upstream_contains_code (n : Nat) (txt : String) (a b c : Nat)
    (hn1 : 100 ≤ n) (hn2 : n ≤ 999) (ha : a < 10) (hb : b < 10) (hc : c < 10)
    (ht : strContains txt "HTTP" = false) :
    strContains (upstreamErrorMessage n txt)
      (String.mk ['H', 'T', 'T', 'P', ' ', digitChar a, digitChar b, digitChar c]) =
    decide (n = 100 * a + 10 * b + c) := by
  have hmsg : (upstreamErrorMessage n txt).toList =
      'H' :: 'T' :: 'T' :: 'P' :: ' ' :: (decRepr n ++ ':' :: ' ' :: txt.toList) := by
    show (upstreamErrorMessage n txt).data = _
    unfold upstreamErrorMessage natToString
    simp only [String.data_append]
    show (['H', 'T', 'T', 'P', ' '] ++ decRepr n ++ [':', ' '] ++ txt.data : List Char) = _
    simp
  unfold strContains
  rw [hmsg]
  have hpat : (String.mk ['H', 'T', 'T', 'P', ' ', digitChar a, digitChar b, digitChar c]).toList
      = ('H' :: 'T' :: 'T' :: 'P' :: ' ' :: digitChar a :: digitChar b :: digitChar c :: []) := rfl
  rw [hpat]
  have htl : listContainsSub ('H' :: 'T' :: 'T' :: 'P' :: []) txt.toList = false := by
    have : ("HTTP" : String).toList = ('H' :: 'T' :: 'T' :: 'P' :: []) := rfl
    rw [← this]
    exact ht
  exact contains_http_code n a b c txt.toList hn1 hn2 ha hb hc htl

/-- A message with no occurrence of `HTTP` contains no pattern extending
`HTTP` either. -/
lemma strContains_ext_false (s p q : String) (h : strContains s p = false) :
    strContains s (p ++ q) = false := by
  unfold strContains at h ⊢
  cases hx : listContainsSub (p ++ q).toList s.toList
  · rfl
  · have hsplit : (p ++ q).toList = p.toList ++ q.toList := String.data_append p q
    rw [hsplit] at hx
    have hmono := listContainsSub_mono p.toList q.toList s.toList hx
    rw [h] at hmono
    exact absurd hmono (by simp)

/-- C6 counterexample: an upstream 500 whose status text is the string
`HTTP 403` is mapped to 403 by the substring-matching code, not to 500 as
the claim's by-upstream-status table demands. -/
theorem c6_counterexample :
    (createHttpErrorResponse (upstreamError 500 "HTTP 403") "proxy M3U8 playlist").1 = 403 ∧
    (createHttpErrorResponse (upstreamError 500 "HTTP 403") "proxy M3U8 playlist").1 ≠ 500 := by
  exact ⟨by decide, by decide⟩

/-- C6 (amended): for fetch-derived errors whose upstream status text
(resp. network-error message) does not itself contain the substring
`HTTP`, the response status is: abort (timeout) 408; upstream status 403,
404, 429 mapped to themselves; 502 and 503 mapped to 502; every other
upstream status and every network error mapped to 500 — and the body
carries the matching error, message and status fields. -/
theorem c6_status_mapping (n : Nat) (txt op abortMsg nm nmsg : String)
    (hn1 : 100 ≤ n) (hn2 : n ≤ 999)
    (ht : strContains txt "HTTP" = false)
    (hnm : nm ≠ "AbortError") (hnmsg : strContains nmsg "HTTP" = false) :
    ((createHttpErrorResponse (upstreamError n txt) op).1 =
      (if n = 403 then 403 else if n = 404 then 404 else if n = 429 then 429
       else if n = 502 ∨ n = 503 then 502 else 500)) ∧
    (createHttpErrorResponse (upstreamError n txt) op).2.error = "Failed to " ++ op ∧
    (createHttpErrorResponse (upstreamError n txt) op).2.message = upstreamErrorMessage n txt ∧
    (createHttpErrorResponse (upstreamError n txt) op).2.status =
      (createHttpErrorResponse (upstreamError n txt) op).1 ∧
    (createHttpErrorResponse (JsError.mk "AbortError" abortMsg) op).1 = 408 ∧
    (createHttpErrorResponse (JsError.mk nm nmsg) op).1 = 500 := by
  have h403 : strContains (upstreamErrorMessage n txt) "HTTP 403" = decide (n = 403) := by
    have h := upstream_contains_code n txt 4 0 3 hn1 hn2 (by omega) (by omega) (by omega) ht
    rw [show ("HTTP 403" : String) =
      String.mk ['H', 'T', 'T', 'P', ' ', digitChar 4, digitChar 0, digitChar 3] from rfl]
    have harith : (100 * 4 + 10 * 0 + 3 : Nat) = 403 := by norm_num
    rw [harith] at h
    exact h
  have h404 : strContains (upstreamErrorMessage n txt) "HTTP 404" = decide (n = 404) := by
    have h := upstream_contains_code n txt 4 0 4 hn1 hn2 (by omega) (by omega) (by omega) ht
    rw [show ("HTTP 404" : String) =
      String.mk ['H', 'T', 'T', 'P', ' ', digitChar 4, digitChar 0, digitChar 4] from rfl]
    have harith : (100 * 4 + 10 * 0 + 4 : Nat) = 404 := by norm_num
    rw [harith] at h
    exact h
  have h429 : strContains (upstreamErrorMessage n txt) "HTTP 429" = decide (n = 429) := by
    have h := upstream_contains_code n txt 4 2 9 hn1 hn2 (by omega) (by omega) (by omega) ht
    rw [show ("HTTP 429" : String) =
      String.mk ['H', 'T', 'T', 'P', ' ', digitChar 4, digitChar 2, digitChar 9] from rfl]
    have harith : (100 * 4 + 10 * 2 + 9 : Nat) = 429 := by norm_num
    rw [harith] at h
    exact h
  have h502 : strContains (upstreamErrorMessage n txt) "HTTP 502" = decide (n = 502) := by
    have h := upstream_contains_code n txt 5 0 2 hn1 hn2 (by omega) (by omega) (by omega) ht
    rw [show ("HTTP 502" : String) =
      String.mk ['H', 'T', 'T', 'P', ' ', digitChar 5, digitChar 0, digitChar 2] from rfl]
    have harith : (100 * 5 + 10 * 0 + 2 : Nat) = 502 := by norm_num
    rw [harith] at h
    exact h
  have h503 : strContains (upstreamErrorMessage n txt) "HTTP 503" = decide (n = 503) := by
    have h := upstream_contains_code n txt 5 0 3 hn1 hn2 (by omega) (by omega) (by omega) ht
    rw [show ("HTTP 503" : String) =
      String.mk ['H', 'T', 'T', 'P', ' ', digitChar 5, digitChar 0, digitChar 3] from rfl]
    have harith : (100 * 5 + 10 * 0 + 3 : Nat) = 503 := by norm_num
    rw [harith] at h
    exact h
  have hupstream :
      errorStatusCode (upstreamError n txt) =
      (if n = 403 then 403 else if n = 404 then 404 else if n = 429 then 429
       else if n = 502 ∨ n = 503 then 502 else 500) := by
    show errorStatusCode ⟨"Error", upstreamErrorMessage n txt⟩ = _
    unfold errorStatusCode
    simp only [h403, h404, h429, h502, h503]
    simp only [decide_eq_true_eq]
    rw [if_neg (by decide)]
  have hnetwork : errorStatusCode (JsError.mk nm nmsg) = 500 := by
    have n403 : strContains nmsg "HTTP 403" = false := by
      rw [show ("HTTP 403" : String) = "HTTP" ++ " 403" from rfl]
      exact strContains_ext_false nmsg "HTTP" " 403" hnmsg
    have n404 : strContains nmsg "HTTP 404" = false := by
      rw [show ("HTTP 404" : String) = "HTTP" ++ " 404" from rfl]
      exact strContains_ext_false nmsg "HTTP" " 404" hnmsg
    have n429 : strContains nmsg "HTTP 429" = false := by
      rw [show ("HTTP 429" : String) = "HTTP" ++ " 429" from rfl]
      exact strContains_ext_false nmsg "HTTP" " 429" hnmsg
    have n502 : strContains nmsg "HTTP 502" = false := by
      rw [show ("HTTP 502" : String) = "HTTP" ++ " 502" from rfl]
      exact strContains_ext_false nmsg "HTTP" " 502" hnmsg
    have n503 : strContains nmsg "HTTP 503" = false := by
      rw [show ("HTTP 503" : String) = "HTTP" ++ " 503" from rfl]
      exact strContains_ext_false nmsg "HTTP" " 503" hnmsg
    unfold errorStatusCode
    simp [hnm, n403, n404, n429, n502, n503]
  refine ⟨hupstream, rfl, rfl, rfl, ?_, hnetwork⟩
  show errorStatusCode ⟨"AbortError", abortMsg⟩ = 408
  unfold errorStatusCode
  simp

/-- Witness for C6 at concrete errors: upstream 404, an abort, and a
network `TypeError`. -/
theorem c6_status_mapping_witness :
    (createHttpErrorResponse (upstreamError 404 "Not Found") "fetch video segment").1 = 404 ∧
    (createHttpErrorResponse (JsError.mk "AbortError" "The operation was aborted")
      "fetch video segment").1 = 408 ∧
    (createHttpErrorResponse (JsError.mk "TypeError" "Failed to fetch")
      "fetch video segment").1 = 500 := by
  have h := c6_status_mapping 404 "Not Found" "fetch video segment"
    "The operation was aborted" "TypeError" "Failed to fetch"
    (by norm_num) (by norm_num) (by decide) (by decide) (by decide)
  exact ⟨h.1.trans (by norm_num), h.2.2.2.2.1, h.2.2.2.2.2⟩

end VidProxy
